import Mathlib

/-!
Verification of the ACL subsystem (acls.c): normalized ACL values, the
mode-projection helpers, the deduplicating interner, the wire codec and the
apply-side mode handling.  Machine integers are modelled as Nat with explicit
truncation where the C code can overflow; the platform ACL syscalls, the
id/name resolution service and the framed varint I/O are external
collaborators and appear as parameters or abstract tokens.
-/

namespace RsyncAcls

/-- Default value of a NON-name-list entry (uchar 0x80). -/
def NO_ENTRY : Nat := 0x80

/-- Bit used only on a name-list entry (1u shifted left 31). -/
def NAME_IS_USER : Nat := 0x80000000

/-- Low-bit flag on a transmitted name-entry access value: a symbolic name follows. -/
def XFLAG_NAME_FOLLOWS : Nat := 0x0001

/-- Low-bit flag on a transmitted name-entry access value: the principal is a user. -/
def XFLAG_NAME_IS_USER : Nat := 0x0002

/-- Flags byte bits indicating which items are transmitted for a literal ACL. -/
def XMIT_USER_OBJ : Nat := 1

def XMIT_GROUP_OBJ : Nat := 2

def XMIT_MASK_OBJ : Nat := 4

def XMIT_OTHER_OBJ : Nat := 8

def XMIT_NAME_LIST : Nat := 16

/-- Modelled from the spec: lib/sysacls.h is not among the sources; the spec
fixes the valid object-permission range at 3 bits (values 0..7). -/
def SMB_ACL_VALID_OBJ_BITS : Nat := 7

/-- Modelled from the spec: valid named-entry access range, 3 bits. -/
def SMB_ACL_VALID_NAME_BITS : Nat := 7

/-- One more than the largest uint32 value. -/
def U32_LIMIT : Nat := 0x100000000

/-- A named ACL entry as held in memory: numeric principal id and a 32-bit
access value whose bit 31 (NAME_IS_USER) distinguishes user from group. -/
structure id_access where
  id : Nat
  access : Nat
deriving DecidableEq

/-- The normalized ACL value: four uchar permission slots (NO_ENTRY when the
slot is absent) plus the ordered list of named entries. -/
structure rsync_acl where
  names : List id_access
  user_obj : Nat
  group_obj : Nat
  mask_obj : Nat
  other_obj : Nat
deriving DecidableEq

def empty_rsync_acl : rsync_acl :=
  { names := [], user_obj := NO_ENTRY, group_obj := NO_ENTRY,
    mask_obj := NO_ENTRY, other_obj := NO_ENTRY }

/-- ida_entries_equal: element-by-element comparison of access and id. -/
def ida_entries_equal : List id_access → List id_access → Bool
  | [], [] => true
  | ida1 :: l1, ida2 :: l2 =>
    if ida1.access ≠ ida2.access ∨ ida1.id ≠ ida2.id then false
    else ida_entries_equal l1 l2
  | _, _ => false

/-- rsync_acl_equal: full structural equality of the four slots and the list. -/
def rsync_acl_equal (racl1 racl2 : rsync_acl) : Bool :=
  racl1.user_obj == racl2.user_obj
    && racl1.group_obj == racl2.group_obj
    && racl1.mask_obj == racl2.mask_obj
    && racl1.other_obj == racl2.other_obj
    && ida_entries_equal racl1.names racl2.names

/-- rsync_acl_get_perms: fold the permission triad back into mode bits;
the mask stands in for the group when present. -/
def rsync_acl_get_perms (racl : rsync_acl) : Nat :=
  (racl.user_obj <<< 6)
    + ((if racl.mask_obj ≠ NO_ENTRY then racl.mask_obj else racl.group_obj) <<< 3)
    + racl.other_obj

/-- rsync_acl_strip_perms: remove the permission-bit entries that can be
reconstructed from the file mode. -/
def rsync_acl_strip_perms (racl : rsync_acl) : rsync_acl :=
  let racl1 := { racl with user_obj := NO_ENTRY }
  let racl2 :=
    if racl1.mask_obj = NO_ENTRY then { racl1 with group_obj := NO_ENTRY }
    else
      let racl1a :=
        if racl1.group_obj = racl1.mask_obj then { racl1 with group_obj := NO_ENTRY }
        else racl1
      { racl1a with mask_obj := NO_ENTRY }
  { racl2 with other_obj := NO_ENTRY }

/-- rsync_acl_fake_perms: given an rsync_acl, fake up the permission bits
from the mode (the spec calls this synthesize_from_mode). -/
def rsync_acl_fake_perms (racl : rsync_acl) (mode : Nat) : rsync_acl :=
  { racl with
    user_obj := (mode >>> 6) &&& 7
    group_obj := (mode >>> 3) &&& 7
    other_obj := mode &&& 7 }

/-- rsync_acl_equal_enough: are the extended (non-permission-bit) entries
equal?  First argument fully populated, second possibly condensed. -/
def rsync_acl_equal_enough (racl1 racl2 : rsync_acl) (m : Nat) : Bool :=
  if (racl1.mask_obj ^^^ racl2.mask_obj) &&& NO_ENTRY ≠ 0 then false
  else if racl1.mask_obj ≠ NO_ENTRY then
    if racl2.group_obj = NO_ENTRY then
      if racl1.group_obj ≠ (m >>> 3) &&& 7 then false
      else ida_entries_equal racl1.names racl2.names
    else if racl1.group_obj ≠ racl2.group_obj then false
    else ida_entries_equal racl1.names racl2.names
  else ida_entries_equal racl1.names racl2.names

/-- A permission slot holds NO_ENTRY or a valid 3-bit value. -/
def slot_ok (x : Nat) : Prop := x = NO_ENTRY ∨ x < 8

/-- A named entry is valid when its id fits in id_t and its access value is a
3-bit permission with, optionally, the NAME_IS_USER bit. -/
def valid_ida (ida : id_access) : Prop :=
  ida.id < U32_LIMIT ∧
    ∃ (p : Nat) (u : Bool), p < 8 ∧ ida.access = p + (if u then NAME_IS_USER else 0)

/- === AclInterner === -/

/-- A cache-table entry: the normalized ACL plus the lazily built native
handle (SMB_ACL_T, an external pointer modelled abstractly; none is NULL).
sizeof(acl_duo) strictly exceeds sizeof(rsync_acl) because of the extra
pointer field. -/
structure acl_duo where
  racl : rsync_acl
  sacl : Option Nat
deriving DecidableEq

/-- The value rsync_acl_equal is given for scan index i: the C code casts
racl_list->items to rsync_acl* and indexes with rsync_acl stride, but the
cache tables hold acl_duo entries.  Offset 0 coincides with entry 0's racl
(racl is the first member), while every index i ≥ 1 reads a span of bytes
straddling adjacent acl_duo entries — still inside the allocation, but
misaligned with every stored racl.  Those unspecified bytes are represented
by the read oracle mis. -/
def duo_stride_read (mis : Nat → rsync_acl) (duos : List acl_duo) : Nat → rsync_acl
  | 0 => (duos.headD { racl := empty_rsync_acl, sacl := none }).racl
  | i + 1 => mis (i + 1)

/-- The downward wrap-around scan of find_matching_rsync_acl over a cache
table: run the loop body the given number of times starting at cursor
position m.  The loop compares the rsync_acl-stride read at the cursor,
returns the cursor on a match, and otherwise decrements it, wrapping from 0
to count-1. -/
def find_scan (mis : Nat → rsync_acl) (racl : rsync_acl) (duos : List acl_duo) :
    Nat → Nat → Option Nat
  | 0, _ => none
  | k + 1, m =>
    if rsync_acl_equal (duo_stride_read mis duos m) racl then some m
    else find_scan mis racl duos k (if m = 0 then duos.length - 1 else m - 1)

/-- find_matching_rsync_acl over a cache table of acl_duo entries: the
per-table static cursor (access_match or default_match) is threaded
explicitly; returns (result index, new cursor).  A cursor of -1 means start
at the end of the list; on failure the cursor is reset to -1 and -1 is
returned. -/
def find_matching_rsync_acl (mis : Nat → rsync_acl) (racl : rsync_acl)
    (duos : List acl_duo) (cursor : Int) : Int × Int :=
  match find_scan mis racl duos duos.length
      (if cursor = -1 then (duos.length : Int) - 1 else cursor).toNat with
  | some m => ((m : Int), (m : Int))
  | none => (-1, -1)

/-- cache_rsync_acl: intern an optional candidate ACL into a cache table of
acl_duo entries, returning (index, table, cursor).  A missing candidate
yields the sentinel index -1; a candidate the (stride-misaligned) lookup
does not find is appended at index count with a NULL native handle. -/
def cache_rsync_acl (mis : Nat → rsync_acl) (racl : Option rsync_acl)
    (duos : List acl_duo) (cursor : Int) : Int × List acl_duo × Int :=
  match racl with
  | none => (-1, duos, cursor)
  | some racl =>
    match find_matching_rsync_acl mis racl duos cursor with
    | (ndx, cursor2) =>
      if ndx = -1 then ((duos.length : Int), duos ++ [{ racl := racl, sacl := none }], cursor2)
      else (ndx, duos, cursor2)

/- === WireCodec === -/

/-- One framed item on the connection: the low-level varint/byte/buffer
primitives are external collaborators, so the stream is a token list. -/
inductive Token where
  | varint (v : Int)
  | byte (b : Nat)
  | buf (bytes : List Nat)
deriving DecidableEq

/-- Decode outcomes that abort: truncated models the external stream running
dry (or a framing-kind mismatch); valueOutOfRange and indexOutOfRange model
exit_cleanup(RERR_STREAMIO) carrying the value the error message prints;
outOfMemory models out_of_memory aborting on an impossible allocation size. -/
inductive DecodeErr where
  | truncated
  | valueOutOfRange (v : Nat)
  | indexOutOfRange (ndx : Int) (count : Nat)
  | outOfMemory
deriving DecidableEq

instance exceptDecEq {ε α : Type} [DecidableEq ε] [DecidableEq α] :
    DecidableEq (Except ε α) := fun a b =>
  match a, b with
  | .error e1, .error e2 =>
    if h : e1 = e2 then isTrue (by rw [h]) else isFalse (fun hc => h (Except.error.inj hc))
  | .error _, .ok _ => isFalse (fun hc => nomatch hc)
  | .ok _, .error _ => isFalse (fun hc => nomatch hc)
  | .ok v1, .ok v2 =>
    if h : v1 = v2 then isTrue (by rw [h]) else isFalse (fun hc => h (Except.ok.inj hc))

/-- read_varint as seen by this layer. -/
def readVarint : List Token → Except DecodeErr (Int × List Token)
  | Token.varint v :: rest => .ok (v, rest)
  | _ => .error .truncated

/-- read_byte as seen by this layer. -/
def readByte : List Token → Except DecodeErr (Nat × List Token)
  | Token.byte b :: rest => .ok (b, rest)
  | _ => .error .truncated

/-- read_buf of a known length as seen by this layer. -/
def readBuf (len : Nat) : List Token → Except DecodeErr (List Nat × List Token)
  | Token.buf bytes :: rest =>
    if bytes.length = len then .ok (bytes, rest) else .error .truncated
  | _ => .error .truncated

/-- C conversion of the int returned by read_varint into a uint32. -/
def intToU32 (v : Int) : Nat := (v % (U32_LIMIT : Int)).toNat

/-- Modelled from the spec: recv_user_name, recv_group_name, match_uid and
match_gid live in the id/name resolution collaborator (uidlist.c), which maps
a numeric id (with or without a transmitted symbolic name) to a local id. -/
structure Externals where
  recvUserName : Nat → List Nat → Nat
  recvGroupName : Nat → List Nat → Nat
  matchUid : Nat → Nat
  matchGid : Nat → Nat

/-- The global option flags consulted by the codec. -/
structure Config where
  inc_recurse : Bool
  am_root : Bool
  numeric_ids : Bool
deriving DecidableEq

/-- recv_acl_access: read an access value; for a name-list entry the low two
bits are flags and the rest must fit SMB_ACL_VALID_NAME_BITS, otherwise the
whole value must fit SMB_ACL_VALID_OBJ_BITS.  Out-of-range values are a
fatal stream error carrying the printed value. -/
def recv_acl_access (for_name : Bool) (s : List Token) :
    Except DecodeErr (Nat × Bool × List Token) :=
  match readVarint s with
  | .error e => .error e
  | .ok (v, s1) =>
    if for_name then
      if (intToU32 v >>> 2) &&& (U32_LIMIT - 1 - SMB_ACL_VALID_NAME_BITS) ≠ 0 then
        .error (.valueOutOfRange (intToU32 v >>> 2))
      else
        .ok ((if (intToU32 v &&& 3) &&& XFLAG_NAME_IS_USER ≠ 0
              then (intToU32 v >>> 2) ||| NAME_IS_USER
              else intToU32 v >>> 2),
             decide ((intToU32 v &&& 3) &&& XFLAG_NAME_FOLLOWS ≠ 0), s1)
    else if intToU32 v &&& (U32_LIMIT - 1 - SMB_ACL_VALID_OBJ_BITS) ≠ 0 then
      .error (.valueOutOfRange (intToU32 v))
    else
      .ok (intToU32 v, false, s1)

/-- The id resolution step of one received name entry: when a name follows it
is read from the stream and resolved externally, otherwise the id may be
remapped by match_uid/match_gid under incremental recursion. -/
def recv_entry_id (ext : Externals) (cfg : Config) (idv : Int) (access : Nat)
    (has_name : Bool) (s : List Token) : Except DecodeErr (Nat × List Token) :=
  if has_name then
    match readByte s with
    | .error e => .error e
    | .ok (len, s1) =>
      match readBuf len s1 with
      | .error e => .error e
      | .ok (nm, s2) =>
        if access &&& NAME_IS_USER ≠ 0 then .ok (ext.recvUserName (intToU32 idv) nm, s2)
        else .ok (ext.recvGroupName (intToU32 idv) nm, s2)
  else if access &&& NAME_IS_USER ≠ 0 then
    .ok ((if cfg.inc_recurse && cfg.am_root && !cfg.numeric_ids
          then ext.matchUid (intToU32 idv) else intToU32 idv), s)
  else
    .ok ((if cfg.inc_recurse && (!cfg.am_root || !cfg.numeric_ids)
          then ext.matchGid (intToU32 idv) else intToU32 idv), s)

/-- The body of recv_ida_entries, iterated count times; the second component
threads computed_mask_bits (a uchar accumulating the OR of access values). -/
def recv_ida_loop (ext : Externals) (cfg : Config) :
    Nat → Nat → List Token → Except DecodeErr (List id_access × Nat × List Token)
  | 0, cmb, s => .ok ([], cmb, s)
  | k + 1, cmb, s =>
    match readVarint s with
    | .error e => .error e
    | .ok (idv, s1) =>
      match recv_acl_access true s1 with
      | .error e => .error e
      | .ok (access, has_name, s2) =>
        match recv_entry_id ext cfg idv access has_name s2 with
        | .error e => .error e
        | .ok (id1, s3) =>
          match recv_ida_loop ext cfg k ((cmb ||| access) &&& 0xFF) s3 with
          | .error e => .error e
          | .ok (l, cmbf, s4) => .ok ({ id := id1, access := access } :: l, cmbf, s4)

/-- recv_ida_entries: read the count and the entries; a negative count makes
new_array overflow its size computation, so out_of_memory aborts.  Returns
the entries and computed_mask_bits with the NO_ENTRY bit masked off. -/
def recv_ida_entries (ext : Externals) (cfg : Config) (s : List Token) :
    Except DecodeErr (List id_access × Nat × List Token) :=
  match readVarint s with
  | .error e => .error e
  | .ok (countv, s1) =>
    if countv < 0 then .error .outOfMemory
    else
      match recv_ida_loop ext cfg countv.toNat 0 s1 with
      | .error e => .error e
      | .ok (l, cmb, s2) => .ok (l, cmb &&& 0x7F, s2)

/-- One transmitted permission slot of a literal ACL: read it when its flag
bit was set, otherwise keep the empty_rsync_acl default NO_ENTRY. -/
def recv_slot (cond : Bool) (s : List Token) : Except DecodeErr (Nat × List Token) :=
  if cond then
    match recv_acl_access false s with
    | .error e => .error e
    | .ok (a, _, s1) => .ok (a, s1)
  else .ok (NO_ENTRY, s)

/-- The slot and name-list portion of a literal ACL payload, before the mask
fix-ups; also returns computed_mask_bits (0 when no name list was sent). -/
def recv_literal_slots_names (ext : Externals) (cfg : Config) (flags : Nat) (s : List Token) :
    Except DecodeErr (rsync_acl × Nat × List Token) :=
  match recv_slot (flags &&& XMIT_USER_OBJ ≠ 0) s with
  | .error e => .error e
  | .ok (u, s1) =>
    match recv_slot (flags &&& XMIT_GROUP_OBJ ≠ 0) s1 with
    | .error e => .error e
    | .ok (g, s2) =>
      match recv_slot (flags &&& XMIT_MASK_OBJ ≠ 0) s2 with
      | .error e => .error e
      | .ok (msk, s3) =>
        match recv_slot (flags &&& XMIT_OTHER_OBJ ≠ 0) s3 with
        | .error e => .error e
        | .ok (o, s4) =>
          if flags &&& XMIT_NAME_LIST ≠ 0 then
            match recv_ida_entries ext cfg s4 with
            | .error e => .error e
            | .ok (l, cmb, s5) =>
              .ok ({ names := l, user_obj := u, group_obj := g,
                     mask_obj := msk, other_obj := o }, cmb, s5)
          else
            .ok ({ names := [], user_obj := u, group_obj := g,
                   mask_obj := msk, other_obj := o }, 0, s4)

/-- The mask fix-ups at the end of recv_rsync_acl: with no named entries a
superfluous mask is folded into the group slot and dropped; with named
entries but no mask one is synthesized from computed_mask_bits and the group
slot (0x7F is the uchar complement of NO_ENTRY). -/
def racl_literal_fixup (racl : rsync_acl) (computed_mask_bits : Nat) : rsync_acl :=
  if racl.names.length = 0 then
    if racl.mask_obj ≠ NO_ENTRY then
      { racl with
        group_obj := racl.group_obj &&& (racl.mask_obj ||| NO_ENTRY),
        mask_obj := NO_ENTRY }
    else racl
  else if racl.mask_obj = NO_ENTRY then
    { racl with mask_obj := (computed_mask_bits ||| racl.group_obj) &&& 0x7F }
  else racl

/-- The bitwise OR of the low access bits (permission part, NAME_IS_USER and
NO_ENTRY bits stripped) of a list of named entries. -/
def access_bits_or (l : List id_access) : Nat :=
  l.foldl (fun a e => a ||| (e.access &&& 0x7F)) 0

/-- recv_rsync_acl: a leading varint 0 introduces a literal payload which is
decoded, fixed up and appended to the receiver's table; a positive value N
reuses entry N-1; negative values and references past the table are a fatal
stream error.  Returns (index, table, remaining stream). -/
def recv_rsync_acl (ext : Externals) (cfg : Config) (table : List rsync_acl) (s : List Token) :
    Except DecodeErr (Nat × List rsync_acl × List Token) :=
  match readVarint s with
  | .error e => .error e
  | .ok (ndxv, s1) =>
    if ndxv < 0 ∨ (table.length : Int) < ndxv then
      .error (.indexOutOfRange ndxv table.length)
    else if ndxv ≠ 0 then
      .ok ((ndxv - 1).toNat, table, s1)
    else
      match readByte s1 with
      | .error e => .error e
      | .ok (flags, s2) =>
        match recv_literal_slots_names ext cfg flags s2 with
        | .error e => .error e
        | .ok (pre, cmb, s3) =>
          .ok (table.length, table ++ [racl_literal_fixup pre cmb], s3)

/-- Modelled from the spec: add_uid and add_gid of the id/name resolution
collaborator register an id for later transmission and return its symbolic
name when one is to travel. -/
structure SendExternals where
  addUid : Nat → Option (List Nat)
  addGid : Nat → Option (List Nat)

/-- The tokens send_ida_entries writes for one entry: the id, then the access
shifted left two (as a uint32) with the user flag, and under incremental
recursion with a known name also the name-follows flag, length byte and
name bytes. -/
def send_ida_entry (sx : SendExternals) (cfg : Config) (ida : id_access) : List Token :=
  let xbits0 := (ida.access <<< 2) % U32_LIMIT
  let is_user := ida.access &&& NAME_IS_USER ≠ 0
  let xbits := if is_user then xbits0 ||| XFLAG_NAME_IS_USER else xbits0
  let name := if is_user then sx.addUid ida.id else sx.addGid ida.id
  Token.varint (ida.id : Int) ::
    match cfg.inc_recurse, name with
    | true, some nm =>
      [Token.varint ((xbits ||| XFLAG_NAME_FOLLOWS : Nat) : Int),
       Token.byte (nm.length &&& 0xFF), Token.buf nm]
    | _, _ => [Token.varint (xbits : Int)]

/-- The entry tokens of a whole ida list, in order. -/
def send_ida_list (sx : SendExternals) (cfg : Config) : List id_access → List Token
  | [] => []
  | ida :: l => send_ida_entry sx cfg ida ++ send_ida_list sx cfg l

/-- send_ida_entries: the count varint followed by the entries. -/
def send_ida_entries (sx : SendExternals) (cfg : Config) (idal : List id_access) : List Token :=
  Token.varint (idal.length : Int) :: send_ida_list sx cfg idal

/-- The flags byte of a literal ACL payload. -/
def racl_flags (racl : rsync_acl) : Nat :=
  (if racl.user_obj ≠ NO_ENTRY then XMIT_USER_OBJ else 0)
    ||| (if racl.group_obj ≠ NO_ENTRY then XMIT_GROUP_OBJ else 0)
    ||| (if racl.mask_obj ≠ NO_ENTRY then XMIT_MASK_OBJ else 0)
    ||| (if racl.other_obj ≠ NO_ENTRY then XMIT_OTHER_OBJ else 0)
    ||| (if racl.names.length ≠ 0 then XMIT_NAME_LIST else 0)

/-- The literal payload send_rsync_acl writes after the leading index varint:
flags byte, each present slot as a varint, then the name list if non-empty. -/
def send_rsync_acl_literal (sx : SendExternals) (cfg : Config) (racl : rsync_acl) : List Token :=
  let flags := racl_flags racl
  Token.byte flags ::
    ((if flags &&& XMIT_USER_OBJ ≠ 0 then [Token.varint (racl.user_obj : Int)] else [])
      ++ (if flags &&& XMIT_GROUP_OBJ ≠ 0 then [Token.varint (racl.group_obj : Int)] else [])
      ++ (if flags &&& XMIT_MASK_OBJ ≠ 0 then [Token.varint (racl.mask_obj : Int)] else [])
      ++ (if flags &&& XMIT_OTHER_OBJ ≠ 0 then [Token.varint (racl.other_obj : Int)] else [])
      ++ (if flags &&& XMIT_NAME_LIST ≠ 0 then send_ida_entries sx cfg racl.names else []))

/-- Concrete external id maps for closed evaluations: all maps are identities. -/
def trivialExternals : Externals :=
  { recvUserName := fun i _ => i, recvGroupName := fun i _ => i,
    matchUid := fun i => i, matchGid := fun i => i }

/-- Concrete sender externals for closed evaluations: no names are known. -/
def trivialSendExternals : SendExternals :=
  { addUid := fun _ => none, addGid := fun _ => none }

/-- Concrete non-incremental configuration for closed evaluations. -/
def plainConfig : Config :=
  { inc_recurse := false, am_root := false, numeric_ids := false }

/- === ApplyEngine === -/

def S_IFMT : Nat := 0o170000

def S_IFDIR : Nat := 0o040000

def S_ISUID : Nat := 0o4000

def S_ISGID : Nat := 0o2000

def S_ISVTX : Nat := 0o1000

def ACCESSPERMS : Nat := 0o777

/-- CHMOD_BITS: the bits chmod can see (setid, sticky and access bits). -/
def CHMOD_BITS : Nat := 0o7777

/-- The two ACL types. -/
inductive SMB_ACL_TYPE where
  | accessType
  | defaultType
deriving DecidableEq

/-- The mode adjustment at the top of change_sacl_perms: group/other bits are
masked off (mode of a uint32 mode_t, so the complement of 0o77 is
0xFFFFFFC0) for a directory gaining the sticky bit — on platforms losing
special mode bits, for a directory with the sticky bit at all — and for a
non-directory losing setuid or setgid; on platforms losing special mode bits
the non-directory branch is compiled out. -/
def change_sacl_perms_mode (loses_special : Bool) (old_mode mode : Nat) : Nat :=
  if mode &&& S_IFMT = S_IFDIR then
    if loses_special then
      if mode &&& S_ISVTX ≠ 0 then mode &&& 0xFFFFFFC0 else mode
    else
      if mode &&& S_ISVTX ≠ 0 ∧ old_mode &&& S_ISVTX = 0 then mode &&& 0xFFFFFFC0 else mode
  else
    if loses_special then mode
    else if (old_mode &&& S_ISUID ≠ 0 ∧ mode &&& S_ISUID = 0)
        ∨ (old_mode &&& S_ISGID ≠ 0 ∧ mode &&& S_ISGID = 0) then
      mode &&& 0xFFFFFFC0
    else mode

/-- The tag types of native ACL entries visited by change_sacl_perms. -/
inductive SmbTag where
  | userObjTag
  | userTag
  | groupObjTag
  | groupTag
  | maskTag
  | otherTag
deriving DecidableEq

/-- The permission value change_sacl_perms stores into an entry of a given
tag, computed from the adjusted mode m; none when the entry is skipped
(group kept when the condensed ACL still carries a group slot; mask kept
empty when not needed). -/
def change_sacl_perms_store (acls_need_mask : Bool) (racl : rsync_acl) (m : Nat) :
    SmbTag → Option Nat
  | SmbTag.userObjTag => some ((m >>> 6) &&& 7)
  | SmbTag.groupObjTag =>
    if racl.group_obj ≠ NO_ENTRY then none else some ((m >>> 3) &&& 7)
  | SmbTag.maskTag =>
    if ¬acls_need_mask ∧ racl.mask_obj = NO_ENTRY then none else some ((m >>> 3) &&& 7)
  | SmbTag.otherTag => some (m &&& 7)
  | _ => none

/-- The mode change_sacl_perms reports back to the caller: the old special
bits joined with the adjusted access bits; on platforms losing special mode
bits, a chmod-invisible change drops the setid bits from the reported old
mode so a later chmod restores them. -/
def change_sacl_perms_result (loses_special : Bool) (old_mode mode : Nat) : Nat :=
  let m := change_sacl_perms_mode loses_special old_mode mode
  let old1 :=
    if loses_special ∧ old_mode &&& (S_ISUID ||| S_ISGID ||| S_ISVTX) ≠ 0
        ∧ old_mode &&& CHMOD_BITS = m &&& CHMOD_BITS
    then old_mode &&& (U32_LIMIT - 1 - (S_ISUID ||| S_ISGID ||| S_ISVTX))
    else old_mode
  (old1 &&& (U32_LIMIT - 1 - ACCESSPERMS)) ||| (m &&& ACCESSPERMS)

/-- The native ACL operations set_rsync_acl requests from the platform layer. -/
inductive SysOp where
  | deleteDefFile
  | packAcl (racl : rsync_acl)
  | changePerms (racl : rsync_acl) (old_mode mode : Nat)
  | setFile (t : SMB_ACL_TYPE) (racl : rsync_acl)
deriving DecidableEq

/-- The sequence of native operations set_rsync_acl requests when each one
succeeds: a default-type ACL whose owning-user slot is NO_ENTRY asks for
deletion of the existing default ACL; otherwise the native object is packed
when not already cached, an access-type write adjusts the permission entries
from the mode, and the ACL is written to the path. -/
def set_rsync_acl_ops (t : SMB_ACL_TYPE) (racl : rsync_acl) (have_sacl : Bool)
    (old_mode mode : Nat) : List SysOp :=
  if t = SMB_ACL_TYPE.defaultType ∧ racl.user_obj = NO_ENTRY then
    [SysOp.deleteDefFile]
  else
    (if have_sacl then [] else [SysOp.packAcl racl])
      ++ (if t = SMB_ACL_TYPE.accessType then [SysOp.changePerms racl old_mode mode] else [])
      ++ [SysOp.setFile t racl]

/- === Basic lemmas === -/

theorem ida_entries_equal_iff (l1 l2 : List id_access) :
    ida_entries_equal l1 l2 = true ↔ l1 = l2 := by
  induction l1 generalizing l2 with
  | nil => cases l2 <;> simp [ida_entries_equal]
  | cons a l ih =>
    cases l2 with
    | nil => simp [ida_entries_equal]
    | cons b l2 =>
      by_cases hab : a.access ≠ b.access ∨ a.id ≠ b.id
      · have hne : a ≠ b := by
          intro h
          cases h
          rcases hab with h | h <;> exact h rfl
        simp only [ida_entries_equal]
        rw [if_pos hab]
        simp [hne]
      · push_neg at hab
        have heq2 : a = b := by
          cases a; cases b
          simp only [id_access.mk.injEq]
          exact ⟨hab.2, hab.1⟩
        subst heq2
        simp only [ida_entries_equal]
        rw [if_neg (by push_neg; exact ⟨rfl, rfl⟩)]
        simp [ih]

theorem ida_entries_equal_refl (l : List id_access) : ida_entries_equal l l = true :=
  (ida_entries_equal_iff l l).mpr rfl

theorem rsync_acl_equal_iff (racl1 racl2 : rsync_acl) :
    rsync_acl_equal racl1 racl2 = true ↔ racl1 = racl2 := by
  cases racl1; cases racl2
  simp [rsync_acl_equal, ida_entries_equal_iff, rsync_acl.mk.injEq]
  tauto

theorem rsync_acl_equal_refl (racl : rsync_acl) : rsync_acl_equal racl racl = true :=
  (rsync_acl_equal_iff racl racl).mpr rfl

/-- For valid slots the NO_ENTRY-bit test of the XOR agrees with presence. -/
theorem mask_xor_bit_iff (a b : Nat) (ha : slot_ok a) (hb : slot_ok b) :
    ((a ^^^ b) &&& NO_ENTRY ≠ 0) ↔ ¬(a = NO_ENTRY ↔ b = NO_ENTRY) := by
  rcases ha with ha | ha <;> rcases hb with hb | hb
  · subst ha hb; decide
  · subst ha
    interval_cases b <;> decide
  · subst hb
    interval_cases a <;> decide
  · interval_cases a <;> interval_cases b <;> decide

/- === Claim C4 === -/

/-- Claim C4 (amended): strip_redundant_permissions clears the owning-user
and other slots unconditionally; clears the group slot exactly when no mask
is present or the group slot equalled the mask; and clears the mask
unconditionally (not only when it equalled the group). -/
theorem C4_strip_perms (racl : rsync_acl) :
    rsync_acl_strip_perms racl =
      { names := racl.names,
        user_obj := NO_ENTRY,
        group_obj :=
          if racl.mask_obj = NO_ENTRY ∨ racl.group_obj = racl.mask_obj
          then NO_ENTRY else racl.group_obj,
        mask_obj := NO_ENTRY,
        other_obj := NO_ENTRY } := by
  unfold rsync_acl_strip_perms
  by_cases h1 : racl.mask_obj = NO_ENTRY <;>
    by_cases h2 : racl.group_obj = racl.mask_obj <;>
    simp [h1, h2]

/-- Claim C4, counterexample to the claim as stated: with group 3 and mask 5
the mask is present, is not equal to the group, and is still cleared. -/
theorem C4_counterexample :
    (rsync_acl.mk [] 7 3 5 2).mask_obj ≠ NO_ENTRY
      ∧ (rsync_acl_strip_perms (rsync_acl.mk [] 7 3 5 2)).mask_obj = NO_ENTRY
      ∧ (rsync_acl.mk [] 7 3 5 2).mask_obj ≠ (rsync_acl.mk [] 7 3 5 2).group_obj := by
  decide

/- === Claim C9 === -/

/-- Claim C9 (amended): for a fully populated NormalizedAcl without a mask
slot, stripping the redundant permissions and refilling the permission slots
from the extracted mode (rsync_acl_fake_perms, the spec's
synthesize_from_mode) reconstructs a value equal-enough to the original
relative to that mode.  When a mask is present the relation fails, because
stripping removes the mask while the original keeps it. -/
theorem C9_strip_fake_equal_enough (v : rsync_acl)
    (hu : v.user_obj ≠ NO_ENTRY) (hg : v.group_obj ≠ NO_ENTRY)
    (ho : v.other_obj ≠ NO_ENTRY) (hm : v.mask_obj = NO_ENTRY) :
    rsync_acl_equal_enough v
      (rsync_acl_fake_perms (rsync_acl_strip_perms v) (rsync_acl_get_perms v))
      (rsync_acl_get_perms v) = true := by
  have hstrip : (rsync_acl_strip_perms v).mask_obj = NO_ENTRY := by
    unfold rsync_acl_strip_perms
    by_cases h2 : v.group_obj = v.mask_obj <;> simp [hm, h2]
  have hnames : (rsync_acl_strip_perms v).names = v.names := by
    unfold rsync_acl_strip_perms
    by_cases h2 : v.group_obj = v.mask_obj <;> simp [hm, h2]
  unfold rsync_acl_equal_enough rsync_acl_fake_perms
  simp only [hstrip, hnames, hm]
  rw [if_neg (by simp)]
  rw [if_neg (by simp)]
  exact ida_entries_equal_refl v.names

/-- Claim C9, witness: the amended theorem applied to a concrete maskless
fully populated value. -/
theorem C9_witness :
    rsync_acl_equal_enough (rsync_acl.mk [id_access.mk 5 6] 6 4 NO_ENTRY 4)
      (rsync_acl_fake_perms
        (rsync_acl_strip_perms (rsync_acl.mk [id_access.mk 5 6] 6 4 NO_ENTRY 4))
        (rsync_acl_get_perms (rsync_acl.mk [id_access.mk 5 6] 6 4 NO_ENTRY 4)))
      (rsync_acl_get_perms (rsync_acl.mk [id_access.mk 5 6] 6 4 NO_ENTRY 4)) = true :=
  C9_strip_fake_equal_enough (rsync_acl.mk [id_access.mk 5 6] 6 4 NO_ENTRY 4)
    (by decide) (by decide) (by decide) (by decide)

/-- Claim C9, counterexample to the claim as stated: a fully populated value
with a mask slot (user 6, group 4, mask 5, other 4) is not equal-enough to
its strip-then-refill reconstruction under its own extracted mode. -/
theorem C9_counterexample :
    (rsync_acl.mk [] 6 4 5 4).user_obj ≠ NO_ENTRY
      ∧ (rsync_acl.mk [] 6 4 5 4).group_obj ≠ NO_ENTRY
      ∧ (rsync_acl.mk [] 6 4 5 4).other_obj ≠ NO_ENTRY
      ∧ rsync_acl_equal_enough (rsync_acl.mk [] 6 4 5 4)
          (rsync_acl_fake_perms
            (rsync_acl_strip_perms (rsync_acl.mk [] 6 4 5 4))
            (rsync_acl_get_perms (rsync_acl.mk [] 6 4 5 4)))
          (rsync_acl_get_perms (rsync_acl.mk [] 6 4 5 4)) = false := by
  decide

/- === Claim C2 === -/

/-- Claim C2: for a fully populated first value and valid mask slots,
equal-enough relative to a mode holds iff both values agree on having a
mask; when a mask is present the group slots match exactly or, with the
second group slot absent, the first group slot equals the group bits of the
mode; and the named-entry lists are equal element by element. -/
theorem C2_equal_enough_characterization (racl1 racl2 : rsync_acl) (m : Nat)
    (hu : racl1.user_obj ≠ NO_ENTRY) (hg : racl1.group_obj ≠ NO_ENTRY)
    (ho : racl1.other_obj ≠ NO_ENTRY)
    (hm1 : slot_ok racl1.mask_obj) (hm2 : slot_ok racl2.mask_obj) :
    rsync_acl_equal_enough racl1 racl2 m = true ↔
      ((racl1.mask_obj ≠ NO_ENTRY ↔ racl2.mask_obj ≠ NO_ENTRY)
        ∧ (racl1.mask_obj ≠ NO_ENTRY →
            racl1.group_obj = racl2.group_obj
              ∨ (racl2.group_obj = NO_ENTRY ∧ racl1.group_obj = (m >>> 3) &&& 7))
        ∧ racl1.names = racl2.names) := by
  have hpres := mask_xor_bit_iff racl1.mask_obj racl2.mask_obj hm1 hm2
  unfold rsync_acl_equal_enough
  split_ifs with h1 h2 h3 h4 h5
  · simp only [Bool.false_eq_true, false_iff]
    rintro ⟨ha, -, -⟩
    exact (hpres.mp h1) (not_iff_not.mp ha)
  · have heqp : racl1.mask_obj = NO_ENTRY ↔ racl2.mask_obj = NO_ENTRY := by
      by_contra hc; exact h1 (hpres.mpr hc)
    simp only [Bool.false_eq_true, false_iff]
    rintro ⟨-, hb, -⟩
    rcases hb h2 with h | ⟨-, h⟩
    · exact hg (h.trans h3)
    · exact h4 h
  · have heqp : racl1.mask_obj = NO_ENTRY ↔ racl2.mask_obj = NO_ENTRY := by
      by_contra hc; exact h1 (hpres.mpr hc)
    rw [ida_entries_equal_iff]
    constructor
    · intro h
      exact ⟨not_iff_not.mpr heqp, fun _ => Or.inr ⟨h3, not_ne_iff.mp h4⟩, h⟩
    · rintro ⟨-, -, h⟩; exact h
  · simp only [Bool.false_eq_true, false_iff]
    rintro ⟨-, hb, -⟩
    rcases hb h2 with h | ⟨h, -⟩
    · exact h5 h
    · exact h3 h
  · have heqp : racl1.mask_obj = NO_ENTRY ↔ racl2.mask_obj = NO_ENTRY := by
      by_contra hc; exact h1 (hpres.mpr hc)
    rw [ida_entries_equal_iff]
    constructor
    · intro h
      exact ⟨not_iff_not.mpr heqp, fun _ => Or.inl (not_ne_iff.mp h5), h⟩
    · rintro ⟨-, -, h⟩; exact h
  · have heqp : racl1.mask_obj = NO_ENTRY ↔ racl2.mask_obj = NO_ENTRY := by
      by_contra hc; exact h1 (hpres.mpr hc)
    rw [ida_entries_equal_iff]
    constructor
    · intro h
      exact ⟨not_iff_not.mpr heqp, fun hc => absurd (not_ne_iff.mp h2) hc, h⟩
    · rintro ⟨-, -, h⟩; exact h

/-- Claim C2, witness: the characterization applied to a concrete fully
populated value and the empty condensed value under mode 0. -/
theorem C2_witness :
    rsync_acl_equal_enough (rsync_acl.mk [] 6 5 NO_ENTRY 4) empty_rsync_acl 0 = true ↔
      (((rsync_acl.mk [] 6 5 NO_ENTRY 4).mask_obj ≠ NO_ENTRY ↔
          empty_rsync_acl.mask_obj ≠ NO_ENTRY)
        ∧ ((rsync_acl.mk [] 6 5 NO_ENTRY 4).mask_obj ≠ NO_ENTRY →
            (rsync_acl.mk [] 6 5 NO_ENTRY 4).group_obj = empty_rsync_acl.group_obj
              ∨ (empty_rsync_acl.group_obj = NO_ENTRY
                  ∧ (rsync_acl.mk [] 6 5 NO_ENTRY 4).group_obj = ((0 : Nat) >>> 3) &&& 7))
        ∧ (rsync_acl.mk [] 6 5 NO_ENTRY 4).names = empty_rsync_acl.names) :=
  C2_equal_enough_characterization (rsync_acl.mk [] 6 5 NO_ENTRY 4) empty_rsync_acl 0
    (by decide) (by decide) (by decide) (Or.inl (by decide)) (Or.inl (by decide))

/- === Claim C6 === -/

/-- Claim C6 (the code contradicts it): the interning lookup walks the
items array with rsync_acl stride while cache_rsync_acl appends acl_duo
entries, so only index 0 of a cache table is read correctly and every
higher index compares against misaligned bytes (the oracle mis).  Interning
a value into a table with one prior entry appends it at index 1; interning
a structurally equal copy misses the stored copy — index 1 reads misaligned
bytes, index 0 holds the other entry — and appends a duplicate at index 2,
returning a different index and growing the table again, against the
claim's idempotence (which the code would need a correct acl_duo-stride
read to satisfy). -/
theorem C6_stride_duplicate (mis : Nat → rsync_acl) (d0 : acl_duo) (v v2 : rsync_acl)
    (cursor : Int) (hcur : cursor = -1 ∨ cursor = 0)
    (h0 : rsync_acl_equal d0.racl v = false)
    (hcopy : rsync_acl_equal v2 v = true)
    (hmis : rsync_acl_equal (mis 1) v = false) :
    cache_rsync_acl mis (some v) [d0] cursor
        = (1, [d0, { racl := v, sacl := none }], -1)
      ∧ cache_rsync_acl mis (some v2) [d0, { racl := v, sacl := none }] (-1)
          = (2, [d0, { racl := v, sacl := none }, { racl := v2, sacl := none }], -1)
      ∧ (2 : Int) ≠ 1 := by
  have h2 : v2 = v := (rsync_acl_equal_iff v2 v).mp hcopy
  subst v2
  refine ⟨?_, ?_, by omega⟩
  · rcases hcur with hc | hc <;> subst hc <;>
      simp [cache_rsync_acl, find_matching_rsync_acl, find_scan, duo_stride_read, h0]
  · simp [cache_rsync_acl, find_matching_rsync_acl, find_scan, duo_stride_read, h0, hmis]

/-- Claim C6, witness for the failing input: one prior entry, any concrete
misread bytes; the second intern of an equal copy returns 2, not 1, and the
table grows to three entries. -/
theorem C6_stride_duplicate_witness :
    cache_rsync_acl (fun _ => empty_rsync_acl)
        (some (rsync_acl.mk [] 7 NO_ENTRY NO_ENTRY NO_ENTRY))
        [{ racl := empty_rsync_acl, sacl := none }] (-1)
        = (1, [{ racl := empty_rsync_acl, sacl := none },
               { racl := rsync_acl.mk [] 7 NO_ENTRY NO_ENTRY NO_ENTRY, sacl := none }], -1)
      ∧ cache_rsync_acl (fun _ => empty_rsync_acl)
            (some (rsync_acl.mk [] 7 NO_ENTRY NO_ENTRY NO_ENTRY))
            [{ racl := empty_rsync_acl, sacl := none },
             { racl := rsync_acl.mk [] 7 NO_ENTRY NO_ENTRY NO_ENTRY, sacl := none }] (-1)
          = (2, [{ racl := empty_rsync_acl, sacl := none },
                 { racl := rsync_acl.mk [] 7 NO_ENTRY NO_ENTRY NO_ENTRY, sacl := none },
                 { racl := rsync_acl.mk [] 7 NO_ENTRY NO_ENTRY NO_ENTRY, sacl := none }], -1)
      ∧ (2 : Int) ≠ 1 :=
  C6_stride_duplicate (fun _ => empty_rsync_acl)
    { racl := empty_rsync_acl, sacl := none }
    (rsync_acl.mk [] 7 NO_ENTRY NO_ENTRY NO_ENTRY)
    (rsync_acl.mk [] 7 NO_ENTRY NO_ENTRY NO_ENTRY) (-1)
    (Or.inl rfl) (by decide) (by decide) (by decide)

/- === Claim C7 === -/

/-- Claim C7: applying a default-type cached ACL whose owning-user slot is
absent requests deletion of the destination's existing default ACL and
neither packs nor writes any platform ACL object. -/
theorem C7_default_deletion (racl : rsync_acl) (have_sacl : Bool) (old_mode mode : Nat)
    (h : racl.user_obj = NO_ENTRY) :
    set_rsync_acl_ops SMB_ACL_TYPE.defaultType racl have_sacl old_mode mode
      = [SysOp.deleteDefFile] := by
  unfold set_rsync_acl_ops
  rw [if_pos ⟨rfl, h⟩]

/-- Claim C7, witness: the deletion request for a concrete userless
default-type ACL. -/
theorem C7_witness :
    set_rsync_acl_ops SMB_ACL_TYPE.defaultType empty_rsync_acl false 0o40755 0o40755
      = [SysOp.deleteDefFile] :=
  C7_default_deletion empty_rsync_acl false 0o40755 0o40755 rfl

/- === Claim C8 === -/

/-- Claim C8 (amended): the mode written along with an access-type ACL has
its group and other bits cleared for a directory gaining the sticky bit (on
platforms losing special mode bits: for a directory with the sticky bit set
at all), and, only on platforms not losing special mode bits, for a
non-directory whose old mode had setuid or setgid while the new one does
not; on platforms losing special mode bits the non-directory branch is
compiled out, so no masking happens there.  The stored user/other
permission entries then derive from the masked mode. -/
theorem C8_mode_masking (loses_special : Bool) (old_mode mode : Nat)
    (h : (mode &&& S_IFMT = S_IFDIR
            ∧ (if loses_special then mode &&& S_ISVTX ≠ 0
               else mode &&& S_ISVTX ≠ 0 ∧ old_mode &&& S_ISVTX = 0))
         ∨ (mode &&& S_IFMT ≠ S_IFDIR ∧ loses_special = false
            ∧ ((old_mode &&& S_ISUID ≠ 0 ∧ mode &&& S_ISUID = 0)
               ∨ (old_mode &&& S_ISGID ≠ 0 ∧ mode &&& S_ISGID = 0)))) :
    change_sacl_perms_mode loses_special old_mode mode = mode &&& 0xFFFFFFC0
      ∧ ∀ (anm : Bool) (racl : rsync_acl),
          change_sacl_perms_store anm racl
              (change_sacl_perms_mode loses_special old_mode mode) SmbTag.userObjTag
            = some (((mode &&& 0xFFFFFFC0) >>> 6) &&& 7)
          ∧ change_sacl_perms_store anm racl
              (change_sacl_perms_mode loses_special old_mode mode) SmbTag.otherTag
            = some ((mode &&& 0xFFFFFFC0) &&& 7) := by
  have hmain : change_sacl_perms_mode loses_special old_mode mode
      = mode &&& 0xFFFFFFC0 := by
    cases loses_special <;>
      rcases h with ⟨hdir, hc⟩ | ⟨hndir, hls, hc⟩ <;>
      simp_all [change_sacl_perms_mode]
  refine ⟨hmain, fun anm racl => ?_⟩
  rw [hmain]
  exact ⟨rfl, rfl⟩

/-- Claim C8, witness: a directory newly gaining the sticky bit on a platform
keeping special mode bits gets group/other cleared in the accompanying
mode. -/
theorem C8_witness :
    change_sacl_perms_mode false 0o40755 0o41755 = 0o41755 &&& 0xFFFFFFC0
      ∧ ∀ (anm : Bool) (racl : rsync_acl),
          change_sacl_perms_store anm racl
              (change_sacl_perms_mode false 0o40755 0o41755) SmbTag.userObjTag
            = some ((((0o41755 : Nat) &&& 0xFFFFFFC0) >>> 6) &&& 7)
          ∧ change_sacl_perms_store anm racl
              (change_sacl_perms_mode false 0o40755 0o41755) SmbTag.otherTag
            = some (((0o41755 : Nat) &&& 0xFFFFFFC0) &&& 7) :=
  C8_mode_masking false 0o40755 0o41755 (Or.inl ⟨by decide, by decide⟩)

/-- Claim C8, counterexample to the claim as stated: on a platform losing
special mode bits, a non-directory losing setuid keeps its group/other bits
in the accompanying mode, because the non-directory branch is compiled out
there. -/
theorem C8_counterexample :
    (0o100644 : Nat) &&& S_IFMT ≠ S_IFDIR
      ∧ (0o104644 : Nat) &&& S_ISUID ≠ 0
      ∧ (0o100644 : Nat) &&& S_ISUID = 0
      ∧ change_sacl_perms_mode true 0o104644 0o100644
          ≠ (0o100644 : Nat) &&& 0xFFFFFFC0 := by
  decide

/- === Codec lemmas === -/

theorem intToU32_lt (v : Int) : intToU32 v < U32_LIMIT := by
  unfold intToU32 U32_LIMIT
  omega

theorem intToU32_coe (u : Nat) (h : u < U32_LIMIT) : intToU32 (u : Int) = u := by
  unfold intToU32 U32_LIMIT at *
  omega

/-- A uint32 value whose bits 3..31 are all masked out is below 8. -/
theorem lt_eight_of_and_hi (b : Nat) (hb : b < U32_LIMIT)
    (h : b &&& 0xFFFFFFF8 = 0) : b < 8 := by
  rw [show (8 : Nat) = 2 ^ 3 by norm_num]
  apply Nat.lt_pow_two_of_testBit
  intro i hi
  by_cases hi32 : i < 32
  · have ht := congrArg (fun x => Nat.testBit x i) h
    simp only [Nat.testBit_and, Nat.zero_testBit] at ht
    have hm : (0xFFFFFFF8 : Nat).testBit i = true := by
      rw [show (0xFFFFFFF8 : Nat) = (2 ^ 29 - 1) <<< 3 by decide]
      rw [Nat.testBit_shiftLeft, Nat.testBit_two_pow_sub_one]
      simp only [Bool.and_eq_true, decide_eq_true_eq]
      omega
    rw [hm, Bool.and_true] at ht
    exact ht
  · apply Nat.testBit_lt_two_pow
    have h32 : b < 2 ^ 32 := by
      unfold U32_LIMIT at hb
      omega
    exact lt_of_lt_of_le h32 (Nat.pow_le_pow_right (by norm_num) (by omega))

/-- A 3-bit value keeps only low bits under a 7-bit mask. -/
theorem and_7F_of_lt_eight (p : Nat) (hp : p < 8) : p &&& 0x7F = p := by
  interval_cases p <;> decide

/-- Joining a disjoint high bit is addition. -/
theorem or_name_bit (p : Nat) (hp : p < 8) : p ||| NAME_IS_USER = p + NAME_IS_USER := by
  have h31 : p < 2 ^ 31 := lt_trans hp (by norm_num)
  have h := Nat.mul_add_lt_is_or h31 1
  norm_num at h
  unfold NAME_IS_USER
  rw [Nat.or_comm, ← h]
  omega

/-- Stripping the low mask from a valid name access value returns its
permission part. -/
theorem name_access_and_7F (p : Nat) (hp : p < 8) :
    p &&& 0x7F = p ∧ (p + NAME_IS_USER) &&& 0x7F = p := by
  constructor
  · exact and_7F_of_lt_eight p hp
  · interval_cases p <;> decide

/-- Extracting the accumulator from the OR fold. -/
theorem or_fold_extract (l : List id_access) :
    ∀ c : Nat, l.foldl (fun a e => a ||| (e.access &&& 0x7F)) c
      = c ||| l.foldl (fun a e => a ||| (e.access &&& 0x7F)) 0 := by
  induction l with
  | nil => intro c; simp
  | cons e l ih =>
    intro c
    simp only [List.foldl_cons, Nat.zero_or]
    rw [ih (c ||| (e.access &&& 0x7F)), ih (e.access &&& 0x7F), Nat.or_assoc]

/-- The truncating computed_mask_bits fold, masked by 0x7F, is the OR of the
entries' low access bits joined with the accumulator's low bits. -/
theorem foldCmb_and_7F (l : List id_access) :
    ∀ c : Nat, (l.foldl (fun a e => (a ||| e.access) &&& 0xFF) c) &&& 0x7F
      = (c &&& 0x7F) ||| access_bits_or l := by
  induction l with
  | nil => intro c; simp [access_bits_or]
  | cons e l ih =>
    intro c
    simp only [List.foldl_cons]
    rw [ih ((c ||| e.access) &&& 0xFF)]
    rw [Nat.and_assoc, show (0xFF &&& 0x7F : Nat) = 0x7F by decide]
    rw [Nat.and_distrib_right c e.access 0x7F]
    show _ = _ ||| access_bits_or (e :: l)
    unfold access_bits_or
    simp only [List.foldl_cons, Nat.zero_or]
    rw [or_fold_extract l (e.access &&& 0x7F), Nat.or_assoc]

/-- The OR of low access bits of 3-bit entries stays below 8. -/
theorem access_bits_or_lt (l : List id_access) (h : ∀ e ∈ l, e.access &&& 0x7F < 8) :
    access_bits_or l < 8 := by
  induction l with
  | nil => simp [access_bits_or]
  | cons e l ih =>
    unfold access_bits_or
    simp only [List.foldl_cons, Nat.zero_or]
    rw [or_fold_extract l (e.access &&& 0x7F)]
    rw [show (8 : Nat) = 2 ^ 3 by norm_num]
    apply Nat.or_lt_two_pow
    · have := h e (List.mem_cons_self e l)
      omega
    · have := ih (fun x hx => h x (List.mem_cons_of_mem e hx))
      unfold access_bits_or at this
      omega

/- === Decoder inversion lemmas === -/

/-- A successful name-entry access decode yields a 3-bit permission with,
optionally, the NAME_IS_USER bit. -/
theorem recv_acl_access_name_ok (s : List Token) (a : Nat) (hn : Bool) (s1 : List Token)
    (h : recv_acl_access true s = .ok (a, hn, s1)) :
    ∃ p : Nat, p < 8 ∧ (a = p ∨ a = p + NAME_IS_USER) := by
  unfold recv_acl_access at h
  cases hv : readVarint s with
  | error e => simp only [hv] at h; simp at h
  | ok q =>
    obtain ⟨v, s2⟩ := q
    simp only [hv] at h
    rw [if_pos trivial] at h
    by_cases hc : (intToU32 v >>> 2) &&& (U32_LIMIT - 1 - SMB_ACL_VALID_NAME_BITS) ≠ 0
    · rw [if_pos hc] at h; simp at h
    · rw [if_neg hc] at h
      push_neg at hc
      simp only [Except.ok.injEq, Prod.mk.injEq] at h
      obtain ⟨ha, -, -⟩ := h
      have hp : intToU32 v >>> 2 < 8 := by
        apply lt_eight_of_and_hi
        · have h1 := intToU32_lt v
          have h2 : intToU32 v >>> 2 ≤ intToU32 v := by
            rw [Nat.shiftRight_eq_div_pow]
            exact Nat.div_le_self _ _
          omega
        · exact hc
      refine ⟨intToU32 v >>> 2, hp, ?_⟩
      rw [← ha]
      by_cases hf : (intToU32 v &&& 3) &&& XFLAG_NAME_IS_USER ≠ 0
      · rw [if_pos hf]
        exact Or.inr (or_name_bit _ hp)
      · rw [if_neg hf]
        exact Or.inl rfl

/-- A successful object-permission decode yields a 3-bit value. -/
theorem recv_acl_access_obj_ok (s : List Token) (a : Nat) (b : Bool) (s1 : List Token)
    (h : recv_acl_access false s = .ok (a, b, s1)) : a < 8 := by
  unfold recv_acl_access at h
  cases hv : readVarint s with
  | error e => simp only [hv] at h; simp at h
  | ok q =>
    obtain ⟨v, s2⟩ := q
    simp only [hv] at h
    rw [if_neg (by simp)] at h
    by_cases hc : intToU32 v &&& (U32_LIMIT - 1 - SMB_ACL_VALID_OBJ_BITS) ≠ 0
    · rw [if_pos hc] at h; simp at h
    · rw [if_neg hc] at h
      push_neg at hc
      simp only [Except.ok.injEq, Prod.mk.injEq] at h
      obtain ⟨ha, -, -⟩ := h
      rw [← ha]
      exact lt_eight_of_and_hi _ (intToU32_lt v) hc

/-- A successful slot decode yields NO_ENTRY or a 3-bit value. -/
theorem recv_slot_ok (c : Bool) (s : List Token) (a : Nat) (s1 : List Token)
    (h : recv_slot c s = .ok (a, s1)) : slot_ok a := by
  unfold recv_slot at h
  cases c with
  | false =>
    simp only [Bool.false_eq_true, if_false, Except.ok.injEq, Prod.mk.injEq] at h
    exact Or.inl h.1.symm
  | true =>
    rw [if_pos rfl] at h
    cases ha : recv_acl_access false s with
    | error e => simp only [ha] at h; simp at h
    | ok r =>
      obtain ⟨a1, b1, s2⟩ := r
      simp only [ha] at h
      simp only [Except.ok.injEq, Prod.mk.injEq] at h
      exact Or.inr (h.1 ▸ recv_acl_access_obj_ok s a1 b1 s2 ha)

/-- A successful entry-list loop decode: the final computed_mask_bits is the
truncating OR fold over the decoded entries, and every decoded access value
is a 3-bit permission with, optionally, the NAME_IS_USER bit. -/
theorem recv_ida_loop_ok (ext : Externals) (cfg : Config) :
    ∀ (k cmb : Nat) (s : List Token) (l : List id_access) (cmbf : Nat) (s1 : List Token),
      recv_ida_loop ext cfg k cmb s = .ok (l, cmbf, s1) →
      cmbf = l.foldl (fun a e => (a ||| e.access) &&& 0xFF) cmb
        ∧ ∀ e ∈ l, ∃ p, p < 8 ∧ (e.access = p ∨ e.access = p + NAME_IS_USER) := by
  intro k
  induction k with
  | zero =>
    intro cmb s l cmbf s1 h
    unfold recv_ida_loop at h
    simp only [Except.ok.injEq, Prod.mk.injEq] at h
    obtain ⟨hl, hc, -⟩ := h
    subst hl
    exact ⟨hc.symm, by simp⟩
  | succ k ih =>
    intro cmb s l cmbf s1 h
    unfold recv_ida_loop at h
    cases hv : readVarint s with
    | error e => simp only [hv] at h; simp at h
    | ok q =>
      obtain ⟨idv, sa⟩ := q
      simp only [hv] at h
      cases haa : recv_acl_access true sa with
      | error e => simp only [haa] at h; simp at h
      | ok r =>
        obtain ⟨access, has_name, sb⟩ := r
        simp only [haa] at h
        cases hei : recv_entry_id ext cfg idv access has_name sb with
        | error e => simp only [hei] at h; simp at h
        | ok t =>
          obtain ⟨id1, sc⟩ := t
          simp only [hei] at h
          cases hrec : recv_ida_loop ext cfg k ((cmb ||| access) &&& 0xFF) sc with
          | error e => simp only [hrec] at h; simp at h
          | ok u =>
            obtain ⟨lr, cmbr, sd⟩ := u
            simp only [hrec] at h
            simp only [Except.ok.injEq, Prod.mk.injEq] at h
            obtain ⟨hl, hcmb, -⟩ := h
            obtain ⟨ih1, ih2⟩ := ih ((cmb ||| access) &&& 0xFF) sc lr cmbr sd hrec
            subst hl
            constructor
            · rw [← hcmb, ih1]
              simp [List.foldl_cons]
            · intro e he
              rcases List.mem_cons.mp he with he1 | he2
              · subst he1
                exact recv_acl_access_name_ok sa access has_name sb haa
              · exact ih2 e he2

/-- A successful recv_ida_entries decode: the reported computed mask is the
OR of the decoded entries' low access bits, each a 3-bit value. -/
theorem recv_ida_entries_ok (ext : Externals) (cfg : Config) (s : List Token)
    (l : List id_access) (cmb : Nat) (s1 : List Token)
    (h : recv_ida_entries ext cfg s = .ok (l, cmb, s1)) :
    cmb = access_bits_or l ∧ (∀ e ∈ l, e.access &&& 0x7F < 8) ∧ cmb < 8 := by
  unfold recv_ida_entries at h
  cases hv : readVarint s with
  | error e => simp only [hv] at h; simp at h
  | ok q =>
    obtain ⟨countv, sa⟩ := q
    simp only [hv] at h
    by_cases hc : countv < 0
    · rw [if_pos hc] at h; simp at h
    · rw [if_neg hc] at h
      cases hloop : recv_ida_loop ext cfg countv.toNat 0 sa with
      | error e => simp only [hloop] at h; simp at h
      | ok u =>
        obtain ⟨lr, cmbr, sb⟩ := u
        simp only [hloop] at h
        simp only [Except.ok.injEq, Prod.mk.injEq] at h
        obtain ⟨hl, hcmb, -⟩ := h
        subst hl
        obtain ⟨h1, h2⟩ := recv_ida_loop_ok ext cfg countv.toNat 0 sa lr cmbr sb hloop
        have hlow : ∀ e ∈ lr, e.access &&& 0x7F < 8 := by
          intro e he
          obtain ⟨p, hp, hpe⟩ := h2 e he
          rcases hpe with hpe | hpe <;> rw [hpe]
          · rw [(name_access_and_7F p hp).1]; exact hp
          · rw [(name_access_and_7F p hp).2]; exact hp
        have hcmb2 : cmb = access_bits_or lr := by
          rw [← hcmb, h1, foldCmb_and_7F lr 0]
          simp
        exact ⟨hcmb2, hlow, hcmb2 ▸ access_bits_or_lt lr hlow⟩

/-- A successful literal slot/name-list decode: the four slots are valid,
the computed mask is the OR of the decoded entries' low access bits, and
every decoded access value has a 3-bit low part. -/
theorem recv_literal_ok (ext : Externals) (cfg : Config) (flags : Nat) (s : List Token)
    (pre : rsync_acl) (cmb : Nat) (s1 : List Token)
    (h : recv_literal_slots_names ext cfg flags s = .ok (pre, cmb, s1)) :
    slot_ok pre.user_obj ∧ slot_ok pre.group_obj ∧ slot_ok pre.mask_obj
      ∧ slot_ok pre.other_obj
      ∧ cmb = access_bits_or pre.names
      ∧ (∀ e ∈ pre.names, e.access &&& 0x7F < 8) ∧ cmb < 8 := by
  unfold recv_literal_slots_names at h
  cases h1 : recv_slot (flags &&& XMIT_USER_OBJ ≠ 0) s with
  | error e => simp only [h1] at h; simp at h
  | ok q1 =>
    obtain ⟨u, sa⟩ := q1
    simp only [h1] at h
    cases h2 : recv_slot (flags &&& XMIT_GROUP_OBJ ≠ 0) sa with
    | error e => simp only [h2] at h; simp at h
    | ok q2 =>
      obtain ⟨g, sb⟩ := q2
      simp only [h2] at h
      cases h3 : recv_slot (flags &&& XMIT_MASK_OBJ ≠ 0) sb with
      | error e => simp only [h3] at h; simp at h
      | ok q3 =>
        obtain ⟨msk, sc⟩ := q3
        simp only [h3] at h
        cases h4 : recv_slot (flags &&& XMIT_OTHER_OBJ ≠ 0) sc with
        | error e => simp only [h4] at h; simp at h
        | ok q4 =>
          obtain ⟨o, sd⟩ := q4
          simp only [h4] at h
          by_cases h5 : flags &&& XMIT_NAME_LIST ≠ 0
          · rw [if_pos h5] at h
            cases h6 : recv_ida_entries ext cfg sd with
            | error e => simp only [h6] at h; simp at h
            | ok q6 =>
              obtain ⟨l, cmb6, se⟩ := q6
              simp only [h6] at h
              simp only [Except.ok.injEq, Prod.mk.injEq] at h
              obtain ⟨hpre, hcmb, -⟩ := h
              obtain ⟨hc1, hc2, hc3⟩ := recv_ida_entries_ok ext cfg sd l cmb6 se h6
              subst hpre
              exact ⟨recv_slot_ok _ s u sa h1, recv_slot_ok _ sa g sb h2,
                     recv_slot_ok _ sb msk sc h3, recv_slot_ok _ sc o sd h4,
                     hcmb ▸ hc1, hc2, hcmb ▸ hc3⟩
          · rw [if_neg h5] at h
            simp only [Except.ok.injEq, Prod.mk.injEq] at h
            obtain ⟨hpre, hcmb, -⟩ := h
            subst hpre
            refine ⟨recv_slot_ok _ s u sa h1, recv_slot_ok _ sa g sb h2,
                    recv_slot_ok _ sb msk sc h3, recv_slot_ok _ sc o sd h4,
                    ?_, by simp, by omega⟩
            rw [← hcmb]
            rfl

/-- The mask fix-up preserves the names and establishes the mask/names
invariant: after it, a mask is present exactly when named entries exist. -/
theorem racl_literal_fixup_invariant (pre : rsync_acl) (cmb : Nat) :
    ((racl_literal_fixup pre cmb).mask_obj ≠ NO_ENTRY
      ↔ (racl_literal_fixup pre cmb).names ≠ []) := by
  unfold racl_literal_fixup
  by_cases h1 : pre.names.length = 0
  · have hn : pre.names = [] := List.length_eq_zero.mp h1
    rw [if_pos h1]
    by_cases h2 : pre.mask_obj ≠ NO_ENTRY
    · rw [if_pos h2]
      simp [hn]
    · rw [if_neg h2]
      push_neg at h2
      simp [hn, h2]
  · rw [if_neg h1]
    have hn : pre.names ≠ [] := by
      intro hc
      exact h1 (by simp [hc])
    by_cases h2 : pre.mask_obj = NO_ENTRY
    · rw [if_pos h2]
      have hle : (cmb ||| pre.group_obj) &&& 0x7F ≤ 0x7F := Nat.and_le_right
      have hne2 : (cmb ||| pre.group_obj) &&& 0x7F ≠ NO_ENTRY := by
        have : NO_ENTRY = 128 := rfl
        omega
      exact iff_of_true hne2 hn
    · rw [if_neg h2]
      simp [hn, h2]

/- === Claim C5 === -/

/-- Claim C5: protocol corruption is fatal.  A leading index varint that is
negative or references an entry not strictly below the table size aborts
decoding with a stream error carrying the printed index; an object
permission or (shifted) named-entry access value with bits outside the valid
3-bit range aborts with a stream error carrying the printed value.  The
errors model exit_cleanup(RERR_STREAMIO): the decoder returns no value and
performs no recovery. -/
theorem C5_protocol_corruption_fatal :
    (∀ (ext : Externals) (cfg : Config) (table : List rsync_acl) (v : Int) (s : List Token),
        v < 0 ∨ (table.length : Int) < v →
        recv_rsync_acl ext cfg table (Token.varint v :: s)
          = .error (.indexOutOfRange v table.length))
      ∧ (∀ (v : Int) (s : List Token),
          intToU32 v &&& (U32_LIMIT - 1 - SMB_ACL_VALID_OBJ_BITS) ≠ 0 →
          recv_acl_access false (Token.varint v :: s)
            = .error (.valueOutOfRange (intToU32 v)))
      ∧ (∀ (v : Int) (s : List Token),
          (intToU32 v >>> 2) &&& (U32_LIMIT - 1 - SMB_ACL_VALID_NAME_BITS) ≠ 0 →
          recv_acl_access true (Token.varint v :: s)
            = .error (.valueOutOfRange (intToU32 v >>> 2))) := by
  refine ⟨?_, ?_, ?_⟩
  · intro ext cfg table v s h
    simp only [recv_rsync_acl, readVarint]
    rw [if_pos h]
  · intro v s h
    simp only [recv_acl_access, readVarint, Bool.false_eq_true, if_false]
    rw [if_pos h]
  · intro v s h
    simp only [recv_acl_access, readVarint, if_true]
    rw [if_pos h]

/-- Claim C5, witness: an index referencing entry 2 of an empty table, an
object permission 8 and a named-entry access with permission part 8 each
abort with the stream error carrying the offending value. -/
theorem C5_witness :
    recv_rsync_acl trivialExternals plainConfig [] [Token.varint 3]
        = .error (.indexOutOfRange 3 0)
      ∧ recv_acl_access false [Token.varint 8]
          = .error (.valueOutOfRange (intToU32 8))
      ∧ recv_acl_access true [Token.varint 32]
          = .error (.valueOutOfRange (intToU32 32 >>> 2)) :=
  ⟨C5_protocol_corruption_fatal.1 trivialExternals plainConfig [] 3 []
      (Or.inr (by decide)),
   C5_protocol_corruption_fatal.2.1 8 [] (by decide),
   C5_protocol_corruption_fatal.2.2 32 [] (by decide)⟩

/- === Claim C10 === -/

/-- Claim C10: every literal ACL the decoder interns satisfies the
mask/names invariant: a successful decode either reuses the table or appends
exactly one ACL whose mask slot is present iff its named-entry list is
non-empty.  In particular the fix-up step discards a mask arriving without
named entries after ANDing the group slot with it, and synthesizes a mask
from the computed mask bits and the group slot when named entries arrive
without one. -/
theorem C10_decoded_invariant :
    (∀ (ext : Externals) (cfg : Config) (table : List rsync_acl) (s : List Token)
        (n : Nat) (t2 : List rsync_acl) (s2 : List Token),
        recv_rsync_acl ext cfg table s = .ok (n, t2, s2) →
        t2 = table
          ∨ ∃ racl, t2 = table ++ [racl] ∧ (racl.mask_obj ≠ NO_ENTRY ↔ racl.names ≠ []))
      ∧ (∀ (pre : rsync_acl) (cmb : Nat), pre.names = [] → pre.mask_obj ≠ NO_ENTRY →
          racl_literal_fixup pre cmb
            = { pre with group_obj := pre.group_obj &&& (pre.mask_obj ||| NO_ENTRY),
                         mask_obj := NO_ENTRY })
      ∧ (∀ (pre : rsync_acl) (cmb : Nat), pre.names ≠ [] → pre.mask_obj = NO_ENTRY →
          racl_literal_fixup pre cmb
            = { pre with mask_obj := (cmb ||| pre.group_obj) &&& 0x7F }) := by
  refine ⟨?_, ?_, ?_⟩
  · intro ext cfg table s n t2 s2 h
    unfold recv_rsync_acl at h
    cases hv : readVarint s with
    | error e => simp only [hv] at h; simp at h
    | ok q =>
      obtain ⟨ndxv, s1⟩ := q
      simp only [hv] at h
      by_cases h1 : ndxv < 0 ∨ (table.length : Int) < ndxv
      · rw [if_pos h1] at h; simp at h
      · rw [if_neg h1] at h
        by_cases h2 : ndxv ≠ 0
        · rw [if_pos h2] at h
          simp only [Except.ok.injEq, Prod.mk.injEq] at h
          exact Or.inl h.2.1.symm
        · rw [if_neg h2] at h
          cases hb : readByte s1 with
          | error e => simp only [hb] at h; simp at h
          | ok qb =>
            obtain ⟨flags, sa⟩ := qb
            simp only [hb] at h
            cases hl : recv_literal_slots_names ext cfg flags sa with
            | error e => simp only [hl] at h; simp at h
            | ok ql =>
              obtain ⟨pre, cmb, sb⟩ := ql
              simp only [hl] at h
              simp only [Except.ok.injEq, Prod.mk.injEq] at h
              obtain ⟨-, ht, -⟩ := h
              exact Or.inr ⟨racl_literal_fixup pre cmb, ht.symm,
                            racl_literal_fixup_invariant pre cmb⟩
  · intro pre cmb hn hm
    unfold racl_literal_fixup
    rw [if_pos (by simp [hn]), if_pos hm]
  · intro pre cmb hn hm
    unfold racl_literal_fixup
    rw [if_neg (by simp [hn]), if_pos hm]

/-- Claim C10, witness: a literal with neither slots nor names interns an
ACL satisfying the invariant; concrete fix-ups of a superfluous mask and of
a missing mask. -/
theorem C10_witness :
    (([empty_rsync_acl] : List rsync_acl) = ([] : List rsync_acl)
        ∨ ∃ racl, ([empty_rsync_acl] : List rsync_acl) = [] ++ [racl]
            ∧ (racl.mask_obj ≠ NO_ENTRY ↔ racl.names ≠ []))
      ∧ racl_literal_fixup (rsync_acl.mk [] NO_ENTRY 5 3 NO_ENTRY) 0
          = { rsync_acl.mk [] NO_ENTRY 5 3 NO_ENTRY with
              group_obj := (rsync_acl.mk [] NO_ENTRY 5 3 NO_ENTRY).group_obj
                  &&& ((rsync_acl.mk [] NO_ENTRY 5 3 NO_ENTRY).mask_obj ||| NO_ENTRY),
              mask_obj := NO_ENTRY }
      ∧ racl_literal_fixup (rsync_acl.mk [id_access.mk 5 6] NO_ENTRY 5 NO_ENTRY NO_ENTRY) 6
          = { rsync_acl.mk [id_access.mk 5 6] NO_ENTRY 5 NO_ENTRY NO_ENTRY with
              mask_obj :=
                (6 ||| (rsync_acl.mk [id_access.mk 5 6] NO_ENTRY 5 NO_ENTRY NO_ENTRY).group_obj)
                  &&& 0x7F } :=
  ⟨C10_decoded_invariant.1 trivialExternals plainConfig [] [Token.varint 0, Token.byte 0]
      0 [empty_rsync_acl] [] (by decide),
   C10_decoded_invariant.2.1 (rsync_acl.mk [] NO_ENTRY 5 3 NO_ENTRY) 0 rfl (by decide),
   C10_decoded_invariant.2.2 (rsync_acl.mk [id_access.mk 5 6] NO_ENTRY 5 NO_ENTRY NO_ENTRY) 6
      (by decide) rfl⟩

/- === Claim C3 === -/

/-- Claim C3: when a literal decode yields named entries but no transmitted
mask slot, the fix-up synthesizes the mask as the OR of the access bits of
all decoded named entries, OR'd with the group slot when present, and the
result lies in the valid 3-bit range.  The computed mask bits equal the OR
fold over the complete decoded entry list, so the synthesis depends on every
entry and can only happen after the whole list is decoded. -/
theorem C3_mask_synthesis (ext : Externals) (cfg : Config) (flags : Nat) (s : List Token)
    (pre : rsync_acl) (cmb : Nat) (s1 : List Token)
    (h : recv_literal_slots_names ext cfg flags s = .ok (pre, cmb, s1))
    (hne : pre.names ≠ []) (hmask : pre.mask_obj = NO_ENTRY) :
    (racl_literal_fixup pre cmb).mask_obj = (cmb ||| pre.group_obj) &&& 0x7F
      ∧ cmb = access_bits_or pre.names
      ∧ (racl_literal_fixup pre cmb).mask_obj
          = access_bits_or pre.names
              ||| (if pre.group_obj ≠ NO_ENTRY then pre.group_obj else 0)
      ∧ (racl_literal_fixup pre cmb).mask_obj < 8 := by
  obtain ⟨-, hg, -, -, hcmb, hlow, hcm8⟩ := recv_literal_ok ext cfg flags s pre cmb s1 h
  have hfix : (racl_literal_fixup pre cmb).mask_obj = (cmb ||| pre.group_obj) &&& 0x7F := by
    unfold racl_literal_fixup
    rw [if_neg (by simp [hne]), if_pos hmask]
  have hval : (cmb ||| pre.group_obj) &&& 0x7F
      = access_bits_or pre.names
          ||| (if pre.group_obj ≠ NO_ENTRY then pre.group_obj else 0) := by
    rw [Nat.and_distrib_right, and_7F_of_lt_eight cmb hcm8, hcmb]
    rcases hg with hg | hg
    · rw [hg]
      rw [if_neg (by simp)]
      rw [show (NO_ENTRY &&& 0x7F : Nat) = 0 by decide]
    · rw [and_7F_of_lt_eight _ hg]
      rw [if_pos (by
        have : NO_ENTRY = 128 := rfl
        omega)]
  have hlt : access_bits_or pre.names
      ||| (if pre.group_obj ≠ NO_ENTRY then pre.group_obj else 0) < 8 := by
    have ha := access_bits_or_lt pre.names hlow
    have hb : (if pre.group_obj ≠ NO_ENTRY then pre.group_obj else 0) < 8 := by
      rcases hg with hg | hg
      · rw [hg, if_neg (by simp)]
        norm_num
      · split <;> omega
    rw [show (8 : Nat) = 2 ^ 3 by norm_num] at ha hb ⊢
    exact Nat.or_lt_two_pow ha hb
  refine ⟨hfix, hcmb, hfix.trans hval, ?_⟩
  rw [hfix, hval]
  exact hlt


/- === Claim C1: round-trip lemmas === -/

theorem and_hi_obj (a : Nat) (ha : a < 8) :
    a &&& (U32_LIMIT - 1 - SMB_ACL_VALID_OBJ_BITS) = 0 := by
  interval_cases a <;> decide

theorem and_hi_name (a : Nat) (ha : a < 8) :
    a &&& (U32_LIMIT - 1 - SMB_ACL_VALID_NAME_BITS) = 0 := by
  interval_cases a <;> decide

/-- A transmitted slot value below 8 decodes to itself. -/
theorem recv_slot_present (a : Nat) (ha : a < 8) (s : List Token) :
    recv_slot true (Token.varint (a : Int) :: s) = .ok (a, s) := by
  have hcoe : intToU32 (a : Int) = a :=
    intToU32_coe a (lt_trans ha (by norm_num [U32_LIMIT]))
  simp only [recv_slot, recv_acl_access, readVarint, if_true, hcoe]
  rw [if_neg (by simp)]
  rw [if_neg (by simp [and_hi_obj a ha])]

/-- A conditionally transmitted slot round-trips for any valid slot value. -/
theorem recv_slot_roundtrip (x : Nat) (hx : slot_ok x) (s : List Token) :
    recv_slot (decide (x ≠ NO_ENTRY))
        ((if x ≠ NO_ENTRY then [Token.varint (x : Int)] else []) ++ s)
      = .ok (x, s) := by
  rcases hx with hx | hx
  · rw [hx]
    rw [if_neg (by simp)]
    simp only [List.nil_append]
    rw [show decide (NO_ENTRY ≠ NO_ENTRY) = false by simp]
    rfl
  · have hne : x ≠ NO_ENTRY := by
      have : NO_ENTRY = 128 := rfl
      omega
    rw [if_pos hne, show decide (x ≠ NO_ENTRY) = true by simp [hne]]
    simp only [List.cons_append, List.nil_append]
    exact recv_slot_present x hx s

/-- The access token the sender writes for a valid name entry decodes back
to the same access value, with no name-follows flag. -/
theorem recv_sent_access (a p : Nat) (u : Bool) (hp : p < 8)
    (ha : a = p + (if u then NAME_IS_USER else 0)) (s : List Token) :
    recv_acl_access true
        (Token.varint
          (((if a &&& NAME_IS_USER ≠ 0
             then ((a <<< 2) % U32_LIMIT) ||| XFLAG_NAME_IS_USER
             else (a <<< 2) % U32_LIMIT) : Nat) : Int) :: s)
      = .ok (a, false, s) := by
  subst ha
  cases u
  · simp only [Bool.false_eq_true, if_false, Nat.add_zero]
    interval_cases p <;> rfl
  · simp only [if_true]
    interval_cases p <;> rfl

/-- With no transmitted name and non-incremental mode, the id resolution
step keeps the id unchanged. -/
theorem recv_entry_id_plain (ext : Externals) (cfg : Config)
    (hinc : cfg.inc_recurse = false) (idv : Int) (access : Nat) (s : List Token) :
    recv_entry_id ext cfg idv access false s = .ok (intToU32 idv, s) := by
  simp [recv_entry_id, hinc]

/-- With non-incremental recursion the sender writes exactly an id varint
and an access varint for each name entry. -/
theorem send_ida_entry_plain (sx : SendExternals) (cfg : Config)
    (hinc : cfg.inc_recurse = false) (ida : id_access) :
    send_ida_entry sx cfg ida
      = [Token.varint (ida.id : Int),
         Token.varint
          (((if ida.access &&& NAME_IS_USER ≠ 0
             then ((ida.access <<< 2) % U32_LIMIT) ||| XFLAG_NAME_IS_USER
             else (ida.access <<< 2) % U32_LIMIT) : Nat) : Int)] := by
  unfold send_ida_entry
  rw [hinc]


/-- Decoding one sent entry consumes its two tokens, records the entry and
ORs its access into computed_mask_bits. -/
theorem recv_ida_loop_step (ext : Externals) (sx : SendExternals) (cfg : Config)
    (hinc : cfg.inc_recurse = false) (ida : id_access) (hv : valid_ida ida)
    (s : List Token) (k cmb : Nat) :
    recv_ida_loop ext cfg (k + 1) cmb (send_ida_entry sx cfg ida ++ s)
      = match recv_ida_loop ext cfg k ((cmb ||| ida.access) &&& 0xFF) s with
        | .error e => .error e
        | .ok (l, c, s1) => .ok (ida :: l, c, s1) := by
  obtain ⟨hid, p, u, hp, hacc⟩ := hv
  obtain ⟨idaid, idaacc⟩ := ida
  simp only at hid hacc
  rw [send_ida_entry_plain sx cfg hinc]
  simp only [recv_ida_loop, readVarint, List.cons_append, List.nil_append]
  simp only [recv_sent_access idaacc p u hp hacc, recv_entry_id_plain ext cfg hinc,
             intToU32_coe idaid hid]

/-- Decoding the sent entry list yields the original entries and the
truncating OR fold of their access values. -/
theorem recv_ida_loop_roundtrip (ext : Externals) (sx : SendExternals) (cfg : Config)
    (hinc : cfg.inc_recurse = false) :
    ∀ (l : List id_access), (∀ e ∈ l, valid_ida e) → ∀ (cmb : Nat) (s : List Token),
      recv_ida_loop ext cfg l.length cmb (send_ida_list sx cfg l ++ s)
        = .ok (l, l.foldl (fun a e => (a ||| e.access) &&& 0xFF) cmb, s) := by
  intro l
  induction l with
  | nil => intro _ cmb s; rfl
  | cons e l ih =>
    intro hval cmb s
    rw [show send_ida_list sx cfg (e :: l)
          = send_ida_entry sx cfg e ++ send_ida_list sx cfg l from rfl]
    rw [List.append_assoc]
    rw [show (e :: l).length = l.length + 1 from rfl]
    rw [recv_ida_loop_step ext sx cfg hinc e (hval e (List.mem_cons_self e l)) _ l.length cmb]
    rw [ih (fun x hx => hval x (List.mem_cons_of_mem e hx)) ((cmb ||| e.access) &&& 0xFF) s]
    simp [List.foldl_cons]

/-- Decoding a sent entry list (count varint then entries) round-trips. -/
theorem recv_ida_entries_roundtrip (ext : Externals) (sx : SendExternals) (cfg : Config)
    (hinc : cfg.inc_recurse = false) (l : List id_access)
    (hval : ∀ e ∈ l, valid_ida e) (s : List Token) :
    recv_ida_entries ext cfg (send_ida_entries sx cfg l ++ s)
      = .ok (l, (l.foldl (fun a e => (a ||| e.access) &&& 0xFF) 0) &&& 0x7F, s) := by
  unfold send_ida_entries
  simp only [recv_ida_entries, readVarint, List.cons_append]
  rw [if_neg (by omega)]
  rw [show ((l.length : Int)).toNat = l.length from Int.toNat_natCast l.length]
  rw [recv_ida_loop_roundtrip ext sx cfg hinc l hval 0 s]


theorem racl_flags_user (racl : rsync_acl) :
    (racl_flags racl &&& XMIT_USER_OBJ ≠ 0) ↔ racl.user_obj ≠ NO_ENTRY := by
  unfold racl_flags
  by_cases h1 : racl.user_obj ≠ NO_ENTRY <;>
    by_cases h2 : racl.group_obj ≠ NO_ENTRY <;>
    by_cases h3 : racl.mask_obj ≠ NO_ENTRY <;>
    by_cases h4 : racl.other_obj ≠ NO_ENTRY <;>
    by_cases h5 : racl.names.length ≠ 0 <;>
    simp [h1, h2, h3, h4, h5, XMIT_USER_OBJ, XMIT_GROUP_OBJ, XMIT_MASK_OBJ,
          XMIT_OTHER_OBJ, XMIT_NAME_LIST] <;>
    decide

theorem racl_flags_group (racl : rsync_acl) :
    (racl_flags racl &&& XMIT_GROUP_OBJ ≠ 0) ↔ racl.group_obj ≠ NO_ENTRY := by
  unfold racl_flags
  by_cases h1 : racl.user_obj ≠ NO_ENTRY <;>
    by_cases h2 : racl.group_obj ≠ NO_ENTRY <;>
    by_cases h3 : racl.mask_obj ≠ NO_ENTRY <;>
    by_cases h4 : racl.other_obj ≠ NO_ENTRY <;>
    by_cases h5 : racl.names.length ≠ 0 <;>
    simp [h1, h2, h3, h4, h5, XMIT_USER_OBJ, XMIT_GROUP_OBJ, XMIT_MASK_OBJ,
          XMIT_OTHER_OBJ, XMIT_NAME_LIST] <;>
    decide

theorem racl_flags_mask (racl : rsync_acl) :
    (racl_flags racl &&& XMIT_MASK_OBJ ≠ 0) ↔ racl.mask_obj ≠ NO_ENTRY := by
  unfold racl_flags
  by_cases h1 : racl.user_obj ≠ NO_ENTRY <;>
    by_cases h2 : racl.group_obj ≠ NO_ENTRY <;>
    by_cases h3 : racl.mask_obj ≠ NO_ENTRY <;>
    by_cases h4 : racl.other_obj ≠ NO_ENTRY <;>
    by_cases h5 : racl.names.length ≠ 0 <;>
    simp [h1, h2, h3, h4, h5, XMIT_USER_OBJ, XMIT_GROUP_OBJ, XMIT_MASK_OBJ,
          XMIT_OTHER_OBJ, XMIT_NAME_LIST] <;>
    decide

theorem racl_flags_other (racl : rsync_acl) :
    (racl_flags racl &&& XMIT_OTHER_OBJ ≠ 0) ↔ racl.other_obj ≠ NO_ENTRY := by
  unfold racl_flags
  by_cases h1 : racl.user_obj ≠ NO_ENTRY <;>
    by_cases h2 : racl.group_obj ≠ NO_ENTRY <;>
    by_cases h3 : racl.mask_obj ≠ NO_ENTRY <;>
    by_cases h4 : racl.other_obj ≠ NO_ENTRY <;>
    by_cases h5 : racl.names.length ≠ 0 <;>
    simp [h1, h2, h3, h4, h5, XMIT_USER_OBJ, XMIT_GROUP_OBJ, XMIT_MASK_OBJ,
          XMIT_OTHER_OBJ, XMIT_NAME_LIST] <;>
    decide

theorem racl_flags_names (racl : rsync_acl) :
    (racl_flags racl &&& XMIT_NAME_LIST ≠ 0) ↔ racl.names ≠ [] := by
  have hlen : racl.names.length ≠ 0 ↔ racl.names ≠ [] := by
    constructor
    · intro h hc; exact h (by simp [hc])
    · intro h hc; exact h (List.length_eq_zero.mp hc)
  rw [← hlen]
  unfold racl_flags
  by_cases h1 : racl.user_obj ≠ NO_ENTRY <;>
    by_cases h2 : racl.group_obj ≠ NO_ENTRY <;>
    by_cases h3 : racl.mask_obj ≠ NO_ENTRY <;>
    by_cases h4 : racl.other_obj ≠ NO_ENTRY <;>
    by_cases h5 : racl.names.length ≠ 0 <;>
    simp [h1, h2, h3, h4, h5, XMIT_USER_OBJ, XMIT_GROUP_OBJ, XMIT_MASK_OBJ,
          XMIT_OTHER_OBJ, XMIT_NAME_LIST] <;>
    decide

/-- The slot and name-list portion of a sent literal payload decodes back to
the original ACL (before the mask fix-ups, which the invariant later makes
trivial). -/
theorem recv_literal_roundtrip (ext : Externals) (sx : SendExternals) (cfg : Config)
    (hinc : cfg.inc_recurse = false) (racl : rsync_acl)
    (hu : slot_ok racl.user_obj) (hg : slot_ok racl.group_obj)
    (hm : slot_ok racl.mask_obj) (ho : slot_ok racl.other_obj)
    (hnames : ∀ e ∈ racl.names, valid_ida e) (rest : List Token) :
    recv_literal_slots_names ext cfg (racl_flags racl)
        (((if racl_flags racl &&& XMIT_USER_OBJ ≠ 0
           then [Token.varint (racl.user_obj : Int)] else [])
          ++ (if racl_flags racl &&& XMIT_GROUP_OBJ ≠ 0
              then [Token.varint (racl.group_obj : Int)] else [])
          ++ (if racl_flags racl &&& XMIT_MASK_OBJ ≠ 0
              then [Token.varint (racl.mask_obj : Int)] else [])
          ++ (if racl_flags racl &&& XMIT_OTHER_OBJ ≠ 0
              then [Token.varint (racl.other_obj : Int)] else [])
          ++ (if racl_flags racl &&& XMIT_NAME_LIST ≠ 0
              then send_ida_entries sx cfg racl.names else [])) ++ rest)
      = .ok (racl,
             (if racl.names ≠ []
              then (racl.names.foldl (fun a e => (a ||| e.access) &&& 0xFF) 0) &&& 0x7F
              else 0),
             rest) := by
  simp only [recv_literal_slots_names, racl_flags_user, racl_flags_group, racl_flags_mask,
             racl_flags_other, racl_flags_names, List.append_assoc]
  rw [recv_slot_roundtrip racl.user_obj hu]
  simp only []
  rw [recv_slot_roundtrip racl.group_obj hg]
  simp only []
  rw [recv_slot_roundtrip racl.mask_obj hm]
  simp only []
  rw [recv_slot_roundtrip racl.other_obj ho]
  simp only []
  by_cases hn : racl.names ≠ []
  · rw [if_pos hn, if_pos hn, if_pos hn]
    rw [recv_ida_entries_roundtrip ext sx cfg hinc racl.names hnames rest]
  · rw [if_neg hn, if_neg hn, if_neg hn]
    push_neg at hn
    simp only [List.nil_append]
    rw [show ({ names := [], user_obj := racl.user_obj, group_obj := racl.group_obj,
                mask_obj := racl.mask_obj, other_obj := racl.other_obj } : rsync_acl)
          = racl by rw [← hn]]

/-- Under the mask/names invariant the decoder fix-up leaves a value
unchanged. -/
theorem racl_literal_fixup_id (racl : rsync_acl) (cmb : Nat)
    (hinv : racl.mask_obj ≠ NO_ENTRY ↔ racl.names ≠ []) :
    racl_literal_fixup racl cmb = racl := by
  unfold racl_literal_fixup
  by_cases hn : racl.names.length = 0
  · rw [if_pos hn]
    have hnil : racl.names = [] := List.length_eq_zero.mp hn
    have hmr : racl.mask_obj = NO_ENTRY := by
      by_contra hc
      exact (hinv.mp hc) hnil
    rw [if_neg (by simp [hmr])]
  · rw [if_neg hn]
    have hne : racl.names ≠ [] := by
      intro hc; exact hn (by simp [hc])
    rw [if_neg (by simp [hinv.mpr hne])]


/-- Claim C1 (amended): encoding a literal wire payload and decoding it
yields a structurally equal NormalizedAcl — the same four slots including
absences and the same named-entry sequence in order — for every valid value
(3-bit slots, valid entry ids and access values) satisfying the decoder's
mask/names invariant (mask present iff named entries exist), under
non-incremental id handling.  Without the invariant the decoder's mask
fix-ups alter the value. -/
theorem C1_round_trip (sx : SendExternals) (ext : Externals) (cfg : Config)
    (table : List rsync_acl) (racl : rsync_acl) (rest : List Token)
    (hinc : cfg.inc_recurse = false)
    (hu : slot_ok racl.user_obj) (hg : slot_ok racl.group_obj)
    (hm : slot_ok racl.mask_obj) (ho : slot_ok racl.other_obj)
    (hnames : ∀ e ∈ racl.names, valid_ida e)
    (hinv : racl.mask_obj ≠ NO_ENTRY ↔ racl.names ≠ []) :
    recv_rsync_acl ext cfg table
        (Token.varint 0 :: (send_rsync_acl_literal sx cfg racl ++ rest))
      = .ok (table.length, table ++ [racl], rest) := by
  simp only [send_rsync_acl_literal, List.cons_append]
  simp only [recv_rsync_acl, readVarint]
  rw [if_neg (by omega)]
  rw [if_neg (by omega)]
  simp only [readByte]
  simp only [recv_literal_roundtrip ext sx cfg hinc racl hu hg hm ho hnames rest]
  rw [racl_literal_fixup_id racl
      (if racl.names ≠ []
       then (racl.names.foldl (fun a e => (a ||| e.access) &&& 0xFF) 0) &&& 0x7F
       else 0) hinv]

/-- Claim C1, witness: a concrete ACL with a named entry, all four slots
populated, round-trips through the literal payload on an empty table. -/
theorem C1_witness :
    recv_rsync_acl trivialExternals plainConfig []
        (Token.varint 0 ::
          (send_rsync_acl_literal trivialSendExternals plainConfig
              (rsync_acl.mk [id_access.mk 5 (6 + NAME_IS_USER)] 6 4 7 5) ++ []))
      = .ok (([] : List rsync_acl).length,
             [] ++ [rsync_acl.mk [id_access.mk 5 (6 + NAME_IS_USER)] 6 4 7 5], []) :=
  C1_round_trip trivialSendExternals trivialExternals plainConfig []
    (rsync_acl.mk [id_access.mk 5 (6 + NAME_IS_USER)] 6 4 7 5) [] rfl
    (Or.inr (by decide)) (Or.inr (by decide)) (Or.inr (by decide)) (Or.inr (by decide))
    (by
      intro e he
      simp only [List.mem_singleton] at he
      subst he
      exact ⟨by decide, 6, true, by decide, rfl⟩)
    (by
      constructor
      · intro _; simp
      · intro _; decide)

/-- Claim C1, counterexample to the claim as stated: a NormalizedAcl with a
mask but no named entries (group 6, mask 3) does not round-trip — the
decoder folds the mask into the group slot (yielding 2) and discards it. -/
theorem C1_counterexample :
    recv_rsync_acl trivialExternals plainConfig []
        (Token.varint 0 :: send_rsync_acl_literal trivialSendExternals plainConfig
          (rsync_acl.mk [] NO_ENTRY 6 3 NO_ENTRY))
      = .ok (0, [rsync_acl.mk [] NO_ENTRY 2 NO_ENTRY NO_ENTRY], [])
      ∧ rsync_acl_equal (rsync_acl.mk [] NO_ENTRY 2 NO_ENTRY NO_ENTRY)
          (rsync_acl.mk [] NO_ENTRY 6 3 NO_ENTRY) = false := by
  decide


/-- Claim C3, witness: decoding the literal with entries (uid 5, rw-) and
(gid 9, r--), group slot 5 and no transmitted mask synthesizes the computed
mask 6 OR group 5, giving 7 within the 3-bit range. -/
theorem C3_witness :
    (racl_literal_fixup
        (rsync_acl.mk [id_access.mk 5 (6 + NAME_IS_USER), id_access.mk 9 4]
          NO_ENTRY 5 NO_ENTRY NO_ENTRY) 6).mask_obj
        = ((6 : Nat)
            ||| (rsync_acl.mk [id_access.mk 5 (6 + NAME_IS_USER), id_access.mk 9 4]
                  NO_ENTRY 5 NO_ENTRY NO_ENTRY).group_obj) &&& 0x7F
      ∧ (6 : Nat) = access_bits_or
          (rsync_acl.mk [id_access.mk 5 (6 + NAME_IS_USER), id_access.mk 9 4]
            NO_ENTRY 5 NO_ENTRY NO_ENTRY).names
      ∧ (racl_literal_fixup
            (rsync_acl.mk [id_access.mk 5 (6 + NAME_IS_USER), id_access.mk 9 4]
              NO_ENTRY 5 NO_ENTRY NO_ENTRY) 6).mask_obj
          = access_bits_or
              (rsync_acl.mk [id_access.mk 5 (6 + NAME_IS_USER), id_access.mk 9 4]
                NO_ENTRY 5 NO_ENTRY NO_ENTRY).names
            ||| (if (rsync_acl.mk [id_access.mk 5 (6 + NAME_IS_USER), id_access.mk 9 4]
                      NO_ENTRY 5 NO_ENTRY NO_ENTRY).group_obj ≠ NO_ENTRY
                 then (rsync_acl.mk [id_access.mk 5 (6 + NAME_IS_USER), id_access.mk 9 4]
                        NO_ENTRY 5 NO_ENTRY NO_ENTRY).group_obj
                 else 0)
      ∧ (racl_literal_fixup
            (rsync_acl.mk [id_access.mk 5 (6 + NAME_IS_USER), id_access.mk 9 4]
              NO_ENTRY 5 NO_ENTRY NO_ENTRY) 6).mask_obj < 8 :=
  C3_mask_synthesis trivialExternals plainConfig 18
    [Token.varint 5, Token.varint 2, Token.varint 5, Token.varint 26,
     Token.varint 9, Token.varint 16]
    (rsync_acl.mk [id_access.mk 5 (6 + NAME_IS_USER), id_access.mk 9 4]
      NO_ENTRY 5 NO_ENTRY NO_ENTRY)
    6 [] (by decide) (by decide) rfl

end RsyncAcls
